import Mathlib

/-!
Verification of the WebSocket fanout server (`src/server.py`) against its
specification. Timestamps (Python floats from `time.time()`) are modelled as
rationals; message payloads as strings; per-client queues
(`asyncio.Queue`) as lists with the head as the oldest element.
-/

namespace WsFanout

/-- `asyncio.Queue.put_nowait`: fails (raises `QueueFull`, modelled as `none`)
iff the queue has positive `maxsize` and already holds at least `maxsize`
items (an `asyncio.Queue` with `maxsize ≤ 0` is unbounded); otherwise appends
the item at the tail. -/
def put_nowait (maxsize : Nat) (q : List String) (item : String) :
    Option (List String) :=
  if 0 < maxsize ∧ maxsize ≤ q.length then none else some (q ++ [item])

/-- `asyncio.Queue.get_nowait`: removes and returns the oldest element;
raises `QueueEmpty` (modelled as `none`) on an empty queue. -/
def get_nowait (q : List String) : Option (String × List String) :=
  match q with
  | [] => none
  | x :: rest => some (x, rest)

/-- `collections.deque(maxlen := m).append`: appends on the right, discarding
from the left when the maximum length is exceeded. -/
def dequeAppend (maxlen : Nat) (l : List ℚ) (x : ℚ) : List ℚ :=
  let l' := l ++ [x]
  if maxlen < l'.length then l'.drop (l'.length - maxlen) else l'

/-- The fields of `ClientState` (server.py line 31) that the broadcaster path
reads and writes. The `queue` itself is passed separately, exactly as in the
source signature of `enqueue_with_drop_oldest`; the relay task handle is a
scheduler object with no data content. -/
structure ClientState where
  drops_total : Nat
  send_times : List ℚ
  last_drop_window : List ℚ
  queue_full_since : Option ℚ
deriving DecidableEq, Repr

/-- `enqueue_with_drop_oldest` (server.py lines 110-139), with the queue
contents observed by each of its queue primitives made explicit: `qa` is the
queue at the first `put_nowait`, `qb` at the `get_nowait`, and `qc` at the
retry `put_nowait` of the `QueueEmpty` branch. Under asyncio's cooperative
scheduling there is no await point inside the function, so an actual call
runs with `qa = qb = qc` (see `enqueue_with_drop_oldest` below); the separate
observations give semantics to the defensive `QueueEmpty` branch the code
carries for a drain race. `none` means an exception (`QueueFull` raised by
the line-124 put) escapes the function. -/
def enqueueObs (maxsize : Nat) (qa qb qc : List String) (item : String)
    (st : ClientState) (now : ℚ) : Option (List String × ClientState × Bool) :=
  match put_nowait maxsize qa item with
  | some q' => some (q', { st with queue_full_since := none }, false)
  | none =>
    match get_nowait qb with
    | some (_, qrest) =>
      match put_nowait maxsize qrest item with
      | some q2 =>
        some (q2,
          { st with
            drops_total := st.drops_total + 1,
            last_drop_window := dequeAppend 100 st.last_drop_window now,
            queue_full_since :=
              match st.queue_full_since with
              | none => some now
              | some t => some t },
          true)
      | none => none
    | none =>
      match put_nowait maxsize qc item with
      | some q' => some (q', st, false)
      | none => some (qc, st, true)

/-- `enqueue_with_drop_oldest` as it actually executes: a single atomic step
(no await between its queue primitives), so every primitive observes the same
queue. Returns the new queue contents, the new client state, and the `Bool`
the source returns (`true` iff the item was dropped). -/
def enqueue_with_drop_oldest (maxsize : Nat) (q : List String) (item : String)
    (st : ClientState) (now : ℚ) : Option (List String × ClientState × Bool) :=
  enqueueObs maxsize q q q item st now

/-- The pruning loop of `should_disconnect_client` (server.py line 167):
repeatedly drop the head while it is older than `now − 10`. -/
def pruneWindow (now : ℚ) : List ℚ → List ℚ
  | [] => []
  | t :: rest => if t < now - 10 then pruneWindow now rest else t :: rest

/-- Python truthiness of an `Optional[float]`: `None` and `0.0` are falsy,
every other float truthy (server.py line 174 tests `state.queue_full_since`
by truthiness, not by `is not None`). -/
def truthyFloat : Option ℚ → Bool
  | none => false
  | some t => decide (t ≠ 0)

/-- `should_disconnect_client` (server.py lines 162-178). The source first
prunes `state.last_drop_window` in place (the while loop), then returns
`True` (evict) iff the pruned window is longer than `drop_limit`, or
`queue_full_since` is truthy and the queue has been full for more than
`full_timeout` seconds. The pair below carries the returned decision in the
first component and the mutated client state in the second. -/
def should_disconnect_client (drop_limit : Nat) (full_timeout : ℚ)
    (st : ClientState) (now : ℚ) : Bool × ClientState :=
  (if drop_limit < (pruneWindow now st.last_drop_window).length then true
   else if truthyFloat st.queue_full_since &&
       decide (full_timeout < now - st.queue_full_since.getD 0) then true
   else false,
   { st with last_drop_window := pruneWindow now st.last_drop_window })

/-- The client registry and disconnect counter of `BroadcastServer`
(server.py lines 47, 52); connection handles are modelled as naturals. -/
structure ServerState where
  clients : List (Nat × ClientState)
  total_disconnects : Nat
deriving DecidableEq

/-- `websocket in self.clients` (server.py line 97). -/
def hasClient (s : ServerState) (ws : Nat) : Bool :=
  s.clients.any (fun p => p.1 == ws)

/-- `unregister_client` (server.py lines 95-108): if the handle is registered,
cancel its relay, delete the registry entry and increment the cumulative
disconnect counter; otherwise do nothing. -/
def unregister_client (s : ServerState) (ws : Nat) : ServerState :=
  if hasClient s ws then
    { clients := s.clients.filter (fun p => !(p.1 == ws)),
      total_disconnects := s.total_disconnects + 1 }
  else s

/-- A freshly admitted client's state (`ClientState()` defaults,
server.py lines 31-39 and 84). -/
def initClientState : ClientState :=
  { drops_total := 0, send_times := [], last_drop_window := [],
    queue_full_since := none }

/-- Characterization of `put_nowait` succeeding. -/
theorem put_nowait_eq_some {maxsize : Nat} {q : List String} {item : String}
    {q' : List String} (h : put_nowait maxsize q item = some q') :
    q' = q ++ [item] ∧ ¬(0 < maxsize ∧ maxsize ≤ q.length) := by
  unfold put_nowait at h
  split at h
  · exact absurd h (by simp)
  · next hc => exact ⟨(Option.some.inj h).symm, hc⟩

/-- Characterization of `put_nowait` failing with `QueueFull`. -/
theorem put_nowait_eq_none {maxsize : Nat} {q : List String} {item : String}
    (h : put_nowait maxsize q item = none) : 0 < maxsize ∧ maxsize ≤ q.length := by
  unfold put_nowait at h
  split at h
  · next hc => exact hc
  · exact absurd h (by simp)

/-- The client state returned by `should_disconnect_client` is the input state
with `last_drop_window` pruned; no other field is touched. -/
theorem sdc_snd_eq (dl : Nat) (ft : ℚ) (st : ClientState) (now : ℚ) :
    (should_disconnect_client dl ft st now).2 =
      { st with last_drop_window := pruneWindow now st.last_drop_window } := rfl

/-- The decision returned by `should_disconnect_client`, as a disjunction. -/
theorem sdc_fst_iff (dl : Nat) (ft : ℚ) (st : ClientState) (now : ℚ) :
    (should_disconnect_client dl ft st now).1 = true ↔
      (dl < (pruneWindow now st.last_drop_window).length ∨
        (truthyFloat st.queue_full_since = true ∧
          ft < now - st.queue_full_since.getD 0)) := by
  unfold should_disconnect_client
  dsimp only
  split
  · next h1 => exact iff_of_true rfl (Or.inl h1)
  · next h1 =>
    split
    · next h2 =>
      rw [Bool.and_eq_true, decide_eq_true_eq] at h2
      exact iff_of_true rfl (Or.inr h2)
    · next h2 =>
      rw [Bool.and_eq_true, decide_eq_true_eq] at h2
      refine iff_of_false (by simp) ?_
      rintro (h | h)
      · exact h1 h
      · exact h2 h

/-- On a chronologically sorted window, the pruning loop (which pops from the
left until the head is recent enough) removes exactly the entries older than
`now − 10`. -/
theorem pruneWindow_sorted_eq_filter (now : ℚ) (l : List ℚ)
    (hs : List.Sorted (· ≤ ·) l) :
    pruneWindow now l = l.filter (fun t => decide (¬ t < now - 10)) := by
  induction l with
  | nil => rfl
  | cons t rest ih =>
    rw [List.sorted_cons] at hs
    unfold pruneWindow
    by_cases hlt : t < now - 10
    · rw [if_pos hlt, ih hs.2, List.filter_cons]
      simp [hlt]
    · rw [if_neg hlt, List.filter_cons, if_pos (by simp [hlt])]
      have hrest : List.filter (fun t => decide (¬ t < now - 10)) rest = rest := by
        rw [List.filter_eq_self]
        intro a ha
        simp only [decide_eq_true_eq]
        exact fun halt => hlt (lt_of_le_of_lt (hs.1 a ha) halt)
      rw [hrest]

/-- After `unregister_client`, the handle is no longer registered. -/
theorem hasClient_after_unregister (s : ServerState) (ws : Nat) :
    hasClient (unregister_client s ws) ws = false := by
  unfold unregister_client
  split
  · next h =>
    rw [Bool.eq_false_iff]
    intro hany
    simp only [hasClient, List.any_eq_true] at hany
    obtain ⟨p, hp, hg⟩ := hany
    rw [List.mem_filter] at hp
    rw [hg] at hp
    exact absurd hp.2 (by simp)
  · next h => exact Bool.eq_false_iff.mpr h

/-- C2 — counterexample: the claim's "queue_full_since is non-null" reading
fails at `queue_full_since = some 0`: the source tests
`state.queue_full_since` by Python truthiness, so the float `0.0` is treated
like `None` and the stall check is skipped, although `0` is non-null and
`now − 0 = 100` exceeds `full_timeout = 5`. -/
theorem should_disconnect_nonnull_cex :
    ¬ (((should_disconnect_client 0 5
          { drops_total := 0, send_times := [], last_drop_window := [],
            queue_full_since := some 0 } 100).1 = true) ↔
        (0 < (pruneWindow 100 ([] : List ℚ)).length ∨
          ((some (0 : ℚ) ≠ none) ∧ (5 : ℚ) < 100 - 0))) := by
  intro hiff
  have h := hiff.mpr (Or.inr ⟨by simp, by norm_num⟩)
  rw [sdc_fst_iff] at h
  rcases h with h | ⟨ht, _⟩
  · exact absurd h (by simp [pruneWindow])
  · exact absurd ht (by simp [truthyFloat])

/-- C2 (amended): the health check returns evict iff the pruned drop window
is strictly longer than `drop_limit`, or `queue_full_since` holds a non-null
and non-zero timestamp `t` with `now − t` strictly greater than
`full_timeout`; otherwise it returns healthy. -/
theorem should_disconnect_iff (dl : Nat) (ft : ℚ) (st : ClientState)
    (now : ℚ) :
    (should_disconnect_client dl ft st now).1 = true ↔
      (dl < (pruneWindow now st.last_drop_window).length ∨
        ∃ t, st.queue_full_since = some t ∧ t ≠ 0 ∧ ft < now - t) := by
  rw [sdc_fst_iff]
  constructor
  · rintro (h | ⟨ht, hlt⟩)
    · exact Or.inl h
    · rcases hq : st.queue_full_since with _ | t
      · rw [hq] at ht; exact absurd ht (by simp [truthyFloat])
      · rw [hq] at ht hlt
        rw [truthyFloat, decide_eq_true_eq] at ht
        exact Or.inr ⟨t, rfl, ht, by simpa using hlt⟩
  · rintro (h | ⟨t, hq, ht0, hlt⟩)
    · exact Or.inl h
    · rw [hq]
      exact Or.inr ⟨by simp [truthyFloat, ht0], by simpa using hlt⟩

/-- C4: on a chronologically ordered drop window, the health check counts
exactly the drops in the trailing 10-second window: the window it measures
keeps every entry not older than `now − 10` (in particular every drop less
than 10 s old) and discards every entry older than 10 s, and the drop-limit
side of the decision compares precisely that count against `drop_limit`. -/
theorem drop_window_pruning (dl : Nat) (ft : ℚ) (st : ClientState) (now : ℚ)
    (hs : List.Sorted (· ≤ ·) st.last_drop_window) :
    (should_disconnect_client dl ft st now).2.last_drop_window =
        st.last_drop_window.filter (fun t => decide (¬ t < now - 10)) ∧
      (dl < (st.last_drop_window.filter
          (fun t => decide (¬ t < now - 10))).length →
        (should_disconnect_client dl ft st now).1 = true) ∧
      ((st.last_drop_window.filter
          (fun t => decide (¬ t < now - 10))).length ≤ dl →
        ((should_disconnect_client dl ft st now).1 = true ↔
          (truthyFloat st.queue_full_since = true ∧
            ft < now - st.queue_full_since.getD 0))) := by
  have hp := pruneWindow_sorted_eq_filter now st.last_drop_window hs
  refine ⟨by rw [sdc_snd_eq]; exact hp, ?_, ?_⟩
  · intro hlen
    rw [sdc_fst_iff]
    exact Or.inl (by rw [hp]; exact hlen)
  · intro hlen
    rw [sdc_fst_iff, hp]
    constructor
    · rintro (h | h)
      · exact absurd hlen (not_le.mpr h)
      · exact h
    · exact Or.inr

/-- C4 — witness at `drop_limit = 0`, `full_timeout = 5`, a sorted window
`[1, 12]` and `now = 12`: the entry `1` (11 s old) is pruned, the entry `12`
is kept. -/
theorem drop_window_pruning_witness :
    (should_disconnect_client 0 5
        { drops_total := 0, send_times := [], last_drop_window := [1, 12],
          queue_full_since := none } 12).2.last_drop_window =
        ([1, 12] : List ℚ).filter (fun t => decide (¬ t < (12 : ℚ) - 10)) ∧
      (0 < (([1, 12] : List ℚ).filter
          (fun t => decide (¬ t < (12 : ℚ) - 10))).length →
        (should_disconnect_client 0 5
          { drops_total := 0, send_times := [], last_drop_window := [1, 12],
            queue_full_since := none } 12).1 = true) ∧
      ((([1, 12] : List ℚ).filter
          (fun t => decide (¬ t < (12 : ℚ) - 10))).length ≤ 0 →
        ((should_disconnect_client 0 5
            { drops_total := 0, send_times := [], last_drop_window := [1, 12],
              queue_full_since := none } 12).1 = true ↔
          (truthyFloat (none : Option ℚ) = true ∧
            (5 : ℚ) < 12 - (none : Option ℚ).getD 0))) :=
  drop_window_pruning 0 5
    { drops_total := 0, send_times := [], last_drop_window := [1, 12],
      queue_full_since := none } 12 (by norm_num [List.sorted_cons])

/-- C7 — counterexample: the health check is not pure. With a drop window
`[0]` and `now = 20`, evaluating it prunes the entry `0` out of
`last_drop_window` in place, so the client state after the call differs from
the state before it. -/
theorem should_disconnect_mutates_cex :
    (should_disconnect_client 0 5
        { drops_total := 0, send_times := [], last_drop_window := [0],
          queue_full_since := none } 20).2 ≠
      { drops_total := 0, send_times := [], last_drop_window := [0],
        queue_full_since := none } := by
  have hpr : pruneWindow 20 [(0 : ℚ)] = [] := by
    unfold pruneWindow
    rw [if_pos (by norm_num)]
    rfl
  intro h
  rw [sdc_snd_eq] at h
  have h2 : pruneWindow 20 [(0 : ℚ)] = [0] :=
    congrArg ClientState.last_drop_window h
  rw [hpr] at h2
  exact List.noConfusion h2

/-- C7 (amended): the health check returns a Boolean decision determined by
the client state and the current time, but it is not pure: it prunes
`last_drop_window` in place (dropping the entries older than `now − 10`),
while leaving `drops_total`, `send_times` and `queue_full_since` — and all
other server state — unchanged. -/
theorem should_disconnect_frame (dl : Nat) (ft : ℚ) (st : ClientState)
    (now : ℚ) :
    (should_disconnect_client dl ft st now).2 =
        { st with last_drop_window := pruneWindow now st.last_drop_window } ∧
      (should_disconnect_client dl ft st now).2.drops_total =
        st.drops_total ∧
      (should_disconnect_client dl ft st now).2.send_times = st.send_times ∧
      (should_disconnect_client dl ft st now).2.queue_full_since =
        st.queue_full_since :=
  ⟨sdc_snd_eq dl ft st now, rfl, rfl, rfl⟩

/-- C8: unregistering a client is idempotent — a second `unregister_client`
on the same handle is a no-op — and a registered handle's removal increments
the cumulative disconnect counter by exactly one and deletes its registry
entry. -/
theorem unregister_client_idempotent (s : ServerState) (ws : Nat) :
    unregister_client (unregister_client s ws) ws = unregister_client s ws ∧
      (hasClient s ws = true →
        (unregister_client s ws).total_disconnects =
            s.total_disconnects + 1 ∧
          hasClient (unregister_client s ws) ws = false) := by
  constructor
  · have h := hasClient_after_unregister s ws
    conv_lhs => rw [unregister_client]
    rw [if_neg (by simp [h])]
  · intro h0
    refine ⟨?_, hasClient_after_unregister s ws⟩
    unfold unregister_client
    rw [if_pos h0]

/-- C8 — witness: a server with the single registered handle `0` and a zero
disconnect counter. -/
theorem unregister_client_idempotent_witness :
    unregister_client
        (unregister_client ⟨[(0, initClientState)], 0⟩ 0) 0 =
      unregister_client ⟨[(0, initClientState)], 0⟩ 0 ∧
      ((unregister_client ⟨[(0, initClientState)], 0⟩ 0).total_disconnects =
          0 + 1 ∧
        hasClient (unregister_client ⟨[(0, initClientState)], 0⟩ 0) 0 =
          false) :=
  ⟨(unregister_client_idempotent ⟨[(0, initClientState)], 0⟩ 0).1,
   (unregister_client_idempotent ⟨[(0, initClientState)], 0⟩ 0).2
     (by decide)⟩

/-- C1: maxsize = 2; enqueueing "a" at time 1 and "b" at time 2 into a fresh
unread queue succeeds without drops; enqueueing "c" at time 3 then returns
`true` ("dropped"), leaves the queue holding exactly "b", "c" in order, sets
`drops_total` to 1 and leaves `queue_full_since` non-null (equal to 3). -/
theorem drop_oldest_basic_scenario :
    (do
      let r1 ← enqueue_with_drop_oldest 2 [] "a" initClientState 1
      let r2 ← enqueue_with_drop_oldest 2 r1.1 "b" r1.2.1 2
      enqueue_with_drop_oldest 2 r2.1 "c" r2.2.1 3) =
    some (["b", "c"],
      { drops_total := 1, send_times := [], last_drop_window := [3],
        queue_full_since := some 3 }, true) := by
  decide


/-- Evaluation of `enqueueObs` when the first insert succeeds. -/
theorem enqueueObs_put_ok {maxsize : Nat} {qa : List String} {item : String}
    {q' : List String} (qb qc : List String) (st : ClientState) (now : ℚ)
    (hput : put_nowait maxsize qa item = some q') :
    enqueueObs maxsize qa qb qc item st now =
      some (q', { st with queue_full_since := none }, false) := by
  unfold enqueueObs
  rw [hput]

/-- Evaluation of `enqueueObs` on the drop-oldest path. -/
theorem enqueueObs_drop {maxsize : Nat} {qa qb : List String} {item : String}
    {x : String} {qrest q2 : List String} (qc : List String)
    (st : ClientState) (now : ℚ)
    (hput : put_nowait maxsize qa item = none)
    (hget : get_nowait qb = some (x, qrest))
    (hput2 : put_nowait maxsize qrest item = some q2) :
    enqueueObs maxsize qa qb qc item st now =
      some (q2,
        { st with
          drops_total := st.drops_total + 1,
          last_drop_window := dequeAppend 100 st.last_drop_window now,
          queue_full_since :=
            match st.queue_full_since with
            | none => some now
            | some t => some t },
        true) := by
  simp only [enqueueObs, hput, hget, hput2]

/-- Evaluation of `enqueueObs` when the put after a successful drop raises
`QueueFull` (the uncaught-exception path). -/
theorem enqueueObs_exn {maxsize : Nat} {qa qb : List String} {item : String}
    {x : String} {qrest : List String} (qc : List String)
    (st : ClientState) (now : ℚ)
    (hput : put_nowait maxsize qa item = none)
    (hget : get_nowait qb = some (x, qrest))
    (hput2 : put_nowait maxsize qrest item = none) :
    enqueueObs maxsize qa qb qc item st now = none := by
  simp only [enqueueObs, hput, hget, hput2]

/-- A non-empty queue cannot both fail the first insert and be observed
empty by `get_nowait` in the same atomic call: the sequential `QueueEmpty`
branch is unreachable. -/
theorem enqueue_empty_branch_unreachable {maxsize : Nat} {q : List String}
    {item : String} (hput : put_nowait maxsize q item = none)
    (hget : get_nowait q = none) : False := by
  cases q with
  | nil =>
    obtain ⟨h1, h2⟩ := put_nowait_eq_none hput
    simp only [List.length_nil, Nat.le_zero] at h2
    omega
  | cons y ys => simp [get_nowait] at hget

/-- C3: whenever a drop-oldest enqueue call completes, the returned flag is
"not dropped" exactly when `queue_full_since` is null afterwards: a
successful insert (which observed the queue not full) clears it, and a drop
leaves it non-null. In particular, if the queue becomes non-full between
two enqueues, the second enqueue succeeds on its first insert and leaves
`queue_full_since` null. -/
theorem enqueue_full_since_sync (maxsize : Nat) (q : List String)
    (item : String) (st : ClientState) (now : ℚ)
    (out : List String × ClientState × Bool)
    (h : enqueue_with_drop_oldest maxsize q item st now = some out) :
    (out.2.2 = false ↔ out.2.1.queue_full_since = none) := by
  unfold enqueue_with_drop_oldest at h
  rcases hput : put_nowait maxsize q item with _ | q'
  · rcases hget : get_nowait q with _ | ⟨x, qrest⟩
    · exact absurd hget (by
        intro hc
        exact enqueue_empty_branch_unreachable hput hc)
    · rcases hput2 : put_nowait maxsize qrest item with _ | q2
      · rw [enqueueObs_exn q st now hput hget hput2] at h
        exact absurd h (by simp)
      · rw [enqueueObs_drop q st now hput hget hput2] at h
        obtain rfl := (Option.some.inj h).symm
        refine iff_of_false (by simp) ?_
        rcases hq : st.queue_full_since with _ | t <;>
          simp [hq]
  · rw [enqueueObs_put_ok q q st now hput] at h
    obtain rfl := (Option.some.inj h).symm
    simp

/-- C3 — witness: enqueueing "a" into an empty queue of capacity 2 succeeds
and leaves `queue_full_since` null. -/
theorem enqueue_full_since_sync_witness :
    (false = false ↔ (none : Option ℚ) = none) :=
  enqueue_full_since_sync 2 [] "a" initClientState 1
    (["a"],
      { drops_total := 0, send_times := [], last_drop_window := [],
        queue_full_since := none },
      false)
    (by decide)

/-- C6: in the drop-oldest enqueue, if the first insert fails on a full
queue and the removal of the oldest element then observes an empty queue,
the insert is retried; if the retry also finds the queue full, the call
returns "dropped" with `drops_total`, `last_drop_window` and
`queue_full_since` all unchanged. -/
theorem enqueue_race_retry_full (maxsize : Nat) (qa qb qc : List String)
    (item : String) (st : ClientState) (now : ℚ)
    (h1 : put_nowait maxsize qa item = none) (h2 : qb = [])
    (h3 : put_nowait maxsize qc item = none) :
    enqueueObs maxsize qa qb qc item st now = some (qc, st, true) := by
  subst h2
  unfold enqueueObs
  rw [h1, h3]
  rfl

/-- C6 — witness: capacity 1, first insert observes `["x"]` (full), the
removal observes an empty queue, and the retry observes `["y"]` (full
again). -/
theorem enqueue_race_retry_full_witness :
    put_nowait 1 ["x"] "c" = none ∧
      enqueueObs 1 ["x"] [] ["y"] "c" initClientState 7 =
        some (["y"], initClientState, true) :=
  ⟨by decide,
   enqueue_race_retry_full 1 ["x"] [] ["y"] "c" initClientState 7
     (by decide) rfl (by decide)⟩

/-- C9: the drop-oldest enqueue preserves the queue bound — starting from a
queue of a positive capacity `maxsize` holding at most `maxsize` items,
every completed call leaves at most `maxsize` items. -/
theorem enqueue_preserves_bound (maxsize : Nat) (q : List String)
    (item : String) (st : ClientState) (now : ℚ)
    (out : List String × ClientState × Bool)
    (hpos : 0 < maxsize) (hle : q.length ≤ maxsize)
    (h : enqueue_with_drop_oldest maxsize q item st now = some out) :
    out.1.length ≤ maxsize := by
  unfold enqueue_with_drop_oldest at h
  rcases hput : put_nowait maxsize q item with _ | q'
  · rcases hget : get_nowait q with _ | ⟨x, qrest⟩
    · exact absurd hget (by
        intro hc
        exact enqueue_empty_branch_unreachable hput hc)
    · rcases hput2 : put_nowait maxsize qrest item with _ | q2
      · rw [enqueueObs_exn q st now hput hget hput2] at h
        exact absurd h (by simp)
      · rw [enqueueObs_drop q st now hput hget hput2] at h
        obtain rfl := (Option.some.inj h).symm
        obtain ⟨hq2, hc2⟩ := put_nowait_eq_some hput2
        subst hq2
        cases q with
        | nil => simp [get_nowait] at hget
        | cons y ys =>
          simp only [get_nowait, Option.some.injEq, Prod.mk.injEq] at hget
          obtain ⟨rfl, rfl⟩ := hget
          simp only [List.length_cons] at hle
          simpa using hle
  · rw [enqueueObs_put_ok q q st now hput] at h
    obtain rfl := (Option.some.inj h).symm
    obtain ⟨hq', hc⟩ := put_nowait_eq_some hput
    subst hq'
    have hlt : q.length < maxsize := by
      by_contra hge
      exact hc ⟨hpos, le_of_not_lt hge⟩
    simpa using hlt

/-- C9 — witness: capacity 2, full queue `["a", "b"]`; enqueueing "c" drops
"a" and the queue stays within its bound. -/
theorem enqueue_preserves_bound_witness :
    (["b", "c"] : List String).length ≤ 2 :=
  enqueue_preserves_bound 2 ["a", "b"] "c" initClientState 5
    (["b", "c"],
      { drops_total := 1, send_times := [], last_drop_window := [5],
        queue_full_since := some 5 },
      true)
    (by decide) (by decide) (by decide)

/-- C10: one drop-oldest enqueue call removes at most one element and
inserts at most one: the queue size afterwards equals the size before or
exceeds it by exactly one (it never decreases), and `drops_total` grows by
at most one. -/
theorem enqueue_step_bounds (maxsize : Nat) (q : List String)
    (item : String) (st : ClientState) (now : ℚ)
    (out : List String × ClientState × Bool)
    (h : enqueue_with_drop_oldest maxsize q item st now = some out) :
    (out.1.length = q.length ∨ out.1.length = q.length + 1) ∧
      out.2.1.drops_total ≤ st.drops_total + 1 := by
  unfold enqueue_with_drop_oldest at h
  rcases hput : put_nowait maxsize q item with _ | q'
  · rcases hget : get_nowait q with _ | ⟨x, qrest⟩
    · exact absurd hget (by
        intro hc
        exact enqueue_empty_branch_unreachable hput hc)
    · rcases hput2 : put_nowait maxsize qrest item with _ | q2
      · rw [enqueueObs_exn q st now hput hget hput2] at h
        exact absurd h (by simp)
      · rw [enqueueObs_drop q st now hput hget hput2] at h
        obtain rfl := (Option.some.inj h).symm
        obtain ⟨hq2, hc2⟩ := put_nowait_eq_some hput2
        subst hq2
        cases q with
        | nil => simp [get_nowait] at hget
        | cons y ys =>
          simp only [get_nowait, Option.some.injEq, Prod.mk.injEq] at hget
          obtain ⟨rfl, rfl⟩ := hget
          exact ⟨Or.inl (by simp), by simp⟩
  · rw [enqueueObs_put_ok q q st now hput] at h
    obtain rfl := (Option.some.inj h).symm
    obtain ⟨hq', hc⟩ := put_nowait_eq_some hput
    subst hq'
    exact ⟨Or.inr (by simp), by simp⟩

/-- C10 — witness: capacity 2, full queue `["a", "b"]`; enqueueing "c"
keeps the size at 2 and increments `drops_total` from 0 to 1. -/
theorem enqueue_step_bounds_witness :
    ((2 : Nat) = 2 ∨ (2 : Nat) = 2 + 1) ∧ (1 : Nat) ≤ 0 + 1 :=
  enqueue_step_bounds 2 ["a", "b"] "c" initClientState 5
    (["b", "c"],
      { drops_total := 1, send_times := [], last_drop_window := [5],
        queue_full_since := some 5 },
      true)
    (by decide)

/-- JSON values, the possible results of `json.loads` on a text frame. -/
inductive JVal where
  | jnull
  | jbool (b : Bool)
  | jnum (q : ℚ)
  | jstr (s : String)
  | jarr (elems : List JVal)
  | jobj (fields : List (String × JVal))

/-- The Python exceptions relevant to the inbound handler: `TypeError` is
not named in the `except` clause of `handle_client`, `KeyError` is. -/
inductive PyErr where
  | typeError
  | keyError
deriving DecidableEq

/-- Character-list match at the head, used for substring search. -/
def chHeadMatch : List Char → List Char → Bool
  | [], _ => true
  | _ :: _, [] => false
  | a :: as, b :: bs => a == b && chHeadMatch as bs

/-- Substring occurrence on character lists (Python `sub in s` for
strings). -/
def chSubstr (sub : List Char) : List Char → Bool
  | [] => chHeadMatch sub []
  | b :: bs => chHeadMatch sub (b :: bs) || chSubstr sub bs

/-- Python `==` between a JSON value and a string: only equal strings
compare equal (used by `in` on lists). -/
def jvalEqString : JVal → String → Bool
  | .jstr s, k => s == k
  | _, _ => false

/-- Python's `k in data` for a `json.loads` result: key containment on a
dict, element equality on a list, substring on a string; `TypeError` on the
non-iterable values `None`, booleans and numbers. -/
def pyIn (k : String) : JVal → Except PyErr Bool
  | .jobj fields => .ok (fields.any (fun p => p.1 == k))
  | .jarr elems => .ok (elems.any (fun v => jvalEqString v k))
  | .jstr s => .ok (chSubstr k.data s.data)
  | _ => .error .typeError

/-- Last binding of a key in a field list (`json.loads` keeps the last of
duplicate keys in a Python dict). -/
def lookupLastField (fields : List (String × JVal)) (k : String) :
    Option JVal :=
  match fields with
  | [] => none
  | (k', v) :: rest =>
    match lookupLastField rest k with
    | some v' => some v'
    | none => if k' == k then some v else none

/-- Python's `data[k]` for a `json.loads` result: dict lookup (raising
`KeyError` when absent), `TypeError` on every non-dict value (string
indices must be integers, list indices must be integers, and the rest are
not subscriptable by a string). -/
def pySubscript (k : String) : JVal → Except PyErr JVal
  | .jobj fields =>
    match lookupLastField fields k with
    | some v => .ok v
    | none => .error .keyError
  | _ => .error .typeError

/-- Numeric coercion performed by Python's `float - x`: numbers are used
directly, booleans count as 1/0, and everything else raises `TypeError`. -/
def pyNum : JVal → Except PyErr ℚ
  | .jnum q => .ok q
  | .jbool b => .ok (if b then 1 else 0)
  | _ => .error .typeError

/-- The per-message body of `handle_client` (server.py lines 299-305):
`json.loads` the frame (a decode failure, modelled as `parsed = none`, is
caught); if `"ack_ts" in data`, compute `(now - data["ack_ts"]) * 1000` and
append it to the end-to-end latency ring (`deque(maxlen=1000)`). The
`except` clause catches exactly `json.JSONDecodeError` and `KeyError`; a
`TypeError` raised by `in`, by the subscript or by the subtraction
propagates out of the handler (modelled as `.error .typeError`). -/
def handle_client_message (parsed : Option JVal) (now : ℚ) (ring : List ℚ) :
    Except PyErr (List ℚ) :=
  match parsed with
  | none => .ok ring
  | some data =>
    match pyIn "ack_ts" data with
    | .error e => .error e
    | .ok false => .ok ring
    | .ok true =>
      match pySubscript "ack_ts" data with
      | .error .keyError => .ok ring
      | .error .typeError => .error .typeError
      | .ok v =>
        match pyNum v with
        | .error e => .error e
        | .ok a => .ok (dequeAppend 1000 ring ((now - a) * 1000))

/-- C5 — the claim fails and the code is at fault: a well-formed ack with a
numeric `ack_ts` appends one latency sample, but the message
`{"ack_ts": "x"}` (an object whose `ack_ts` has the wrong type) makes the
subtraction raise a `TypeError`, which the `except (json.JSONDecodeError,
KeyError)` clause does not catch — the error escapes the per-message
handler and tears the connection down instead of being silently ignored. -/
theorem ack_wrong_type_raises :
    handle_client_message (some (.jobj [("ack_ts", .jnum 1)])) 3 [] =
        .ok [2000] ∧
      handle_client_message (some (.jobj [("ack_ts", .jstr "x")])) 3 [] =
        .error .typeError := by
  constructor
  · show Except.ok (dequeAppend 1000 [] ((3 - 1) * 1000)) = Except.ok [2000]
    norm_num [dequeAppend]
  · rfl

end WsFanout
